import Mathlib

/-!
Verification of the atmosphere-ml preprocessing pipeline.

This file shallowly embeds the two training/inference scripts of the
repository:

* the wildfire pipeline (`predict.js` / `train.js`, the file
  `src/unnamed/part_000`): bounding-box summarisation, the Event Key set,
  the three negative-sample generators, the quota split and the dataset
  assembly;
* the pollution pipeline (`src/pollution_prediction/train.js` and the
  pollution `predict.js`, `src/unnamed/part_002`): the cyclical date
  encoding, the year-bound handling and the `safeParse` target coercion.

Modelling conventions:

* JS numbers are modelled as rationals (`ℚ`) on the wildfire side, where
  every claim is about exact arithmetic, comparisons, flooring and string
  keys; on the pollution side the feature vectors live in `ℝ` and the
  platform functions `Math.sin` / `Math.cos` are abstract parameters
  `s c : ℝ → ℝ` (the claims are about the *arguments* fed to them and the
  surrounding arithmetic, not about the numerics of sine itself).
* `Math.random()` is an injectable stream `rng : ℕ → ℚ` of draws in
  `[0, 1)`; attempt `t` of a generator consumes the draws with indices
  `k*t`, `k*t+1`, … exactly in the order the source consumes them.  Each
  generator invocation receives its own stream, which is equivalent to
  splitting the single global stream at the (run-dependent) offsets.
* The shared mutable `fireSet` (a JS `Set` of key strings) is modelled as
  a list of structured keys threaded through the generators; membership
  is list membership, `add` is `cons`.  `toFixed(4)` on a coordinate is
  modelled by rounding `x * 10000` to an integer, which preserves exactly
  the collision structure of the 4-decimal string.
-/

namespace AtmosphereML

/-! ## Wildfire pipeline: data model (train.js in src/unnamed/part_000) -/

/-- One row of `firedata.csv` after `loadPositiveData` (all five fields
go through `parseFloat`, hence rationals). -/
structure FireRecord where
  FIRE_SIZE : ℚ
  LATITUDE : ℚ
  LONGITUDE : ℚ
  FIRE_YEAR : ℚ
  DISCOVERY_DOY : ℚ
deriving DecidableEq

instance : Inhabited FireRecord := ⟨⟨0, 0, 0, 0, 0⟩⟩

/-- The bounding box / time range derived from the positive data
(`bounding` object in `runTraining`). -/
structure Bounding where
  latMin : ℚ
  latMax : ℚ
  lonMin : ℚ
  lonMax : ℚ
  yearMin : ℚ
  yearMax : ℚ
deriving DecidableEq

/-- `minMaxScale(value, min, max)`: `max === min ? 0.0 : (value - min) / (max - min)`.
The identical helper appears in the wildfire `predict.js` and inside
`runTraining` of the wildfire `train.js`. -/
def minMaxScale (value min max : ℚ) : ℚ :=
  if max = min then 0 else (value - min) / (max - min)

/-- `clamp(value, minVal, maxVal)`: `Math.max(minVal, Math.min(value, maxVal))`. -/
def clamp (value minVal maxVal : ℚ) : ℚ :=
  Max.max minVal (Min.min value maxVal)

/-- `randomInRange(minVal, maxVal)` with the consumed `Math.random()` draw
`r` made explicit: `r * (maxVal - minVal) + minVal`. -/
def randomInRange (r minVal maxVal : ℚ) : ℚ :=
  r * (maxVal - minVal) + minVal

/-- The effect of `x.toFixed(4)` on the key string: the coordinate is
identified with the integer of its 4-decimal rounding. -/
def roundTo4 (x : ℚ) : ℤ :=
  round (x * 10000)

/-- An Event Key, the structured content of the string
`lat.toFixed(4) + "," + lon.toFixed(4) + "," + year + "," + doy`. -/
abbrev EventKey := ℤ × ℤ × ℚ × ℚ

/-- The key of a record, as built in `buildFireSet` and in each generator. -/
def fireKey (r : FireRecord) : EventKey :=
  (roundTo4 r.LATITUDE, roundTo4 r.LONGITUDE, r.FIRE_YEAR, r.DISCOVERY_DOY)

/-- `buildFireSet(posData)`: the set of keys of all positive rows. -/
def buildFireSet (posData : List FireRecord) : List EventKey :=
  posData.map fireKey

/-- One step of the linear scan in `findMinMax`:
`if (val < min) min = val; if (val > max) max = val;`. -/
def findMinMaxStep (acc : ℚ × ℚ) (val : ℚ) : ℚ × ℚ :=
  (if val < acc.1 then val else acc.1, if acc.2 < val then val else acc.2)

/-- `findMinMax(arr)`.  The source initialises the accumulator with
`(Infinity, -Infinity)`, so after the first element of a nonempty array
the accumulator is exactly `(arr[0], arr[0])`; this fold is that
behaviour.  `runTraining` aborts on empty positive data before ever
calling it on an empty array; the `[]` branch is an unreachable default. -/
def findMinMax : List ℚ → ℚ × ℚ
  | [] => (0, 0)
  | v :: rest => rest.foldl findMinMaxStep (v, v)

/-- The `bounding` object computed at the start of `runTraining`. -/
def boundingOf (posData : List FireRecord) : Bounding :=
  let latMM := findMinMax (posData.map FireRecord.LATITUDE)
  let lonMM := findMinMax (posData.map FireRecord.LONGITUDE)
  let yearMM := findMinMax (posData.map FireRecord.FIRE_YEAR)
  ⟨latMM.1, latMM.2, lonMM.1, lonMM.2, yearMM.1, yearMM.2⟩

/-! ## Negative quota split (`runTraining`, step 3) -/

/-- `localNegCount = Math.floor(totalNeg * 0.4)`. -/
def localNegCount (totalNeg : ℕ) : ℤ :=
  ⌊(totalNeg : ℚ) * 0.4⌋

/-- `globalNegCount = Math.floor(totalNeg * 0.3)`. -/
def globalNegCount (totalNeg : ℕ) : ℤ :=
  ⌊(totalNeg : ℚ) * 0.3⌋

/-- `neverFireNegCount = totalNeg - localNegCount - globalNegCount`. -/
def neverFireNegCount (totalNeg : ℕ) : ℤ :=
  (totalNeg : ℤ) - localNegCount totalNeg - globalNegCount totalNeg

/-! ## Theorems for claims C3 and C8 -/

/-- Claim C3: for every raw value within the bounds, `minMaxScale`
returns a value in `[0, 1]`; and for every input, when the bound minimum
equals the bound maximum it returns exactly `0` (the degenerate branch is
taken before any division, so no division by zero can occur). -/
theorem c3_minMaxScale_range :
    (∀ value b : ℚ, minMaxScale value b b = 0) ∧
    (∀ value lo hi : ℚ, lo ≤ value → value ≤ hi →
      0 ≤ minMaxScale value lo hi ∧ minMaxScale value lo hi ≤ 1) := by
  constructor
  · intro value b
    simp [minMaxScale]
  · intro value lo hi h1 h2
    by_cases h : hi = lo
    · simp [minMaxScale, h]
    · have hlt : lo < hi := lt_of_le_of_ne (le_trans h1 h2) (Ne.symm h)
      have hpos : 0 < hi - lo := by linarith
      constructor
      · simp only [minMaxScale, if_neg h]
        exact div_nonneg (by linarith) (le_of_lt hpos)
      · simp only [minMaxScale, if_neg h]
        rw [div_le_one hpos]
        linarith

/-- Witness for claim C3 at concrete inputs. -/
theorem c3_minMaxScale_range_witness :
    minMaxScale 2 7 7 = 0 ∧
    (0 ≤ minMaxScale 3 1 5 ∧ minMaxScale 3 1 5 ≤ 1) :=
  ⟨c3_minMaxScale_range.1 2 7, c3_minMaxScale_range.2 3 1 5 (by norm_num) (by norm_num)⟩

/-- Claim C8: the negative quotas are `floor(0.4 N)`, `floor(0.3 N)` and
the remainder, they always sum to exactly `N`, and for `N = 2` the split
is `local = 0`, `global = 0`, `neverFire = 2`. -/
theorem c8_quota_split :
    (∀ N : ℕ, localNegCount N + globalNegCount N + neverFireNegCount N = N) ∧
    localNegCount 2 = 0 ∧ globalNegCount 2 = 0 ∧ neverFireNegCount 2 = 2 := by
  refine ⟨fun N => ?_, ?_, ?_, ?_⟩
  · unfold neverFireNegCount
    ring
  · show ⌊(2 : ℚ) * 0.4⌋ = 0
    norm_num
  · show ⌊(2 : ℚ) * 0.3⌋ = 0
    norm_num
  · show (2 : ℤ) - localNegCount 2 - globalNegCount 2 = 2
    have h1 : localNegCount 2 = 0 := by
      show ⌊(2 : ℚ) * 0.4⌋ = 0
      norm_num
    have h2 : globalNegCount 2 = 0 := by
      show ⌊(2 : ℚ) * 0.3⌋ = 0
      norm_num
    rw [h1, h2]
    norm_num

/-! ## Negative-sample generators -/

/-- `LAT_OFFSET_DEG` in `createLocalNegativeSamples`. -/
def LAT_OFFSET_DEG : ℚ := 0.5

/-- `LON_OFFSET_DEG` in `createLocalNegativeSamples`. -/
def LON_OFFSET_DEG : ℚ := 0.5

/-- `DOY_OFFSET` in `createLocalNegativeSamples`. -/
def DOY_OFFSET : ℚ := 15

/-- The two sequential boundary checks of the local generator:
`if (newDoy < 1) newDoy = 1; if (newDoy > 366) newDoy = 366;`. -/
def clampDoy (d : ℚ) : ℚ :=
  let d1 := if d < 1 then 1 else d
  if 366 < d1 then 366 else d1

/-- The candidate built by attempt `t` of the body of
`createLocalNegativeSamples`: random anchor row, lat/lon offsets in
`±0.5°` clamped into the bounding box, day-of-year offset
`Math.floor((Math.random() * 2 - 1) * 15)`, anchor year kept.  Attempt
`t` consumes the draws `rng (4t) … rng (4t+3)` in source order. -/
def localCand (posData : List FireRecord) (bounding : Bounding) (rng : ℕ → ℚ)
    (t : ℕ) : FireRecord :=
  let idx := (⌊rng (4 * t) * posData.length⌋).toNat
  let ref := posData.getD idx default
  let latOffset := (rng (4 * t + 1) * 2 - 1) * LAT_OFFSET_DEG
  let lonOffset := (rng (4 * t + 2) * 2 - 1) * LON_OFFSET_DEG
  let doyOffset : ℤ := ⌊(rng (4 * t + 3) * 2 - 1) * DOY_OFFSET⌋
  { FIRE_SIZE := 0
    LATITUDE := clamp (ref.LATITUDE + latOffset) bounding.latMin bounding.latMax
    LONGITUDE := clamp (ref.LONGITUDE + lonOffset) bounding.lonMin bounding.lonMax
    FIRE_YEAR := ref.FIRE_YEAR
    DISCOVERY_DOY := clampDoy (ref.DISCOVERY_DOY + doyOffset) }

/-- The candidate built by attempt `t` of the body of
`createGlobalNegativeSamples`: uniform lat/lon in the bounding box,
`year = Math.floor(randomInRange(yearMin, yearMax + 1))`,
`doy = Math.floor(randomInRange(1, 367))`. -/
def globalCand (bounding : Bounding) (rng : ℕ → ℚ) (t : ℕ) : FireRecord :=
  { FIRE_SIZE := 0
    LATITUDE := randomInRange (rng (4 * t)) bounding.latMin bounding.latMax
    LONGITUDE := randomInRange (rng (4 * t + 1)) bounding.lonMin bounding.lonMax
    FIRE_YEAR := (⌊randomInRange (rng (4 * t + 2)) bounding.yearMin (bounding.yearMax + 1)⌋ : ℤ)
    DISCOVERY_DOY := (⌊randomInRange (rng (4 * t + 3)) 1 367⌋ : ℤ) }

/-- The shared accept/reject loop of all three generators:
`while (negatives.length < want && attempts < maxAttempts)`, rejecting a
candidate whose key is already in the shared set, otherwise pushing the
record and adding its key.  `fuel` is the remaining attempt budget and
`t` the index of the next attempt. -/
def sampleLoop (cand : ℕ → FireRecord) :
    (fuel want t : ℕ) → List EventKey → List FireRecord × List EventKey
  | 0, _, _, set => ([], set)
  | fuel + 1, want, t, set =>
    if want = 0 then ([], set)
    else if fireKey (cand t) ∈ set then
      sampleLoop cand fuel want (t + 1) set
    else
      let r := sampleLoop cand fuel (want - 1) (t + 1) (fireKey (cand t) :: set)
      (cand t :: r.1, r.2)

/-- `createLocalNegativeSamples(posData, numLocalNeg, bounding, fireSet)`
with `maxAttempts = numLocalNeg * 5`.  Returns the produced negatives and
the final state of the shared key set. -/
def createLocalNegativeSamples (posData : List FireRecord) (numLocalNeg : ℕ)
    (bounding : Bounding) (fireSet : List EventKey) (rng : ℕ → ℚ) :
    List FireRecord × List EventKey :=
  sampleLoop (localCand posData bounding rng) (numLocalNeg * 5) numLocalNeg 0 fireSet

/-- `createGlobalNegativeSamples(numGlobalNeg, bounding, fireSet)` with
`maxAttempts = numGlobalNeg * 10`. -/
def createGlobalNegativeSamples (numGlobalNeg : ℕ) (bounding : Bounding)
    (fireSet : List EventKey) (rng : ℕ → ℚ) :
    List FireRecord × List EventKey :=
  sampleLoop (globalCand bounding rng) (numGlobalNeg * 10) numGlobalNeg 0 fireSet

/-! ## Core invariants of the sampling loop -/

/-- A `getD` access below the length is a member of the list. -/
theorem getD_mem_of_lt {α : Type} (l : List α) (n : ℕ) (d : α)
    (h : n < l.length) : l.getD n d ∈ l := by
  induction l generalizing n with
  | nil => simp at h
  | cons x xs ih =>
    cases n with
    | zero => simp [List.getD]
    | succ m =>
      simp only [List.getD_cons_succ]
      exact List.mem_cons_of_mem x (ih m (by simpa using h))

/-- Flooring `r * n` for a draw `r ∈ [0, 1)` yields a valid index into a
nonempty array of length `n`. -/
theorem floor_mul_length_lt (r : ℚ) (n : ℕ) (h0 : 0 ≤ r) (h1 : r < 1)
    (hn : 0 < n) : (⌊r * n⌋).toNat < n := by
  have hub : ⌊r * (n : ℚ)⌋ < (n : ℤ) := by
    apply Int.floor_lt.2
    push_cast
    calc r * (n : ℚ) < 1 * (n : ℚ) := by
          apply mul_lt_mul_of_pos_right h1
          exact_mod_cast hn
    _ = (n : ℚ) := one_mul _
  have hlb : (0 : ℤ) ≤ ⌊r * (n : ℚ)⌋ :=
    Int.floor_nonneg.2 (mul_nonneg h0 (by positivity))
  omega

/-- The four fundamental invariants of `sampleLoop`, proved jointly: the
final key set is the input set extended with exactly the keys of the
accepted records; the accepted keys are pairwise distinct; each accepted
key was absent from the input set; every accepted record is the
candidate of some attempt index `u ≥ t`. -/
theorem sampleLoop_spec (cand : ℕ → FireRecord) (fuel : ℕ) :
    ∀ (want t : ℕ) (set : List EventKey),
      ((sampleLoop cand fuel want t set).2 =
        (((sampleLoop cand fuel want t set).1).map fireKey).reverse ++ set) ∧
      (((sampleLoop cand fuel want t set).1).map fireKey).Nodup ∧
      (∀ k ∈ ((sampleLoop cand fuel want t set).1).map fireKey, k ∉ set) ∧
      (∀ rec ∈ (sampleLoop cand fuel want t set).1, ∃ u, t ≤ u ∧ rec = cand u) := by
  induction fuel with
  | zero =>
    intro want t set
    simp [sampleLoop]
  | succ fuel ih =>
    intro want t set
    by_cases hw : want = 0
    · simp [sampleLoop, hw]
    · by_cases hk : fireKey (cand t) ∈ set
      · simp only [sampleLoop, if_neg hw, if_pos hk]
        obtain ⟨h1, h2, h3, h4⟩ := ih want (t + 1) set
        exact ⟨h1, h2, h3, fun rec hrec => by
          obtain ⟨u, hu, he⟩ := h4 rec hrec
          exact ⟨u, by omega, he⟩⟩
      · simp only [sampleLoop, if_neg hw, if_neg hk]
        obtain ⟨h1, h2, h3, h4⟩ := ih (want - 1) (t + 1) (fireKey (cand t) :: set)
        refine ⟨?_, ?_, ?_, ?_⟩
        · simp only [List.map_cons, List.reverse_cons, List.append_assoc,
            List.singleton_append]
          exact h1
        · simp only [List.map_cons, List.nodup_cons]
          refine ⟨fun hmem => ?_, h2⟩
          exact h3 _ hmem (List.mem_cons_self _ _)
        · intro k hkmem
          simp only [List.map_cons, List.mem_cons] at hkmem
          rcases hkmem with rfl | hkmem
          · exact hk
          · intro hks
            exact h3 k hkmem (List.mem_cons_of_mem _ hks)
        · intro rec hrec
          simp only [List.mem_cons] at hrec
          rcases hrec with rfl | hrec
          · exact ⟨t, le_refl t, rfl⟩
          · obtain ⟨u, hu, he⟩ := h4 rec hrec
            exact ⟨u, by omega, he⟩

/-- `clamp` with ordered bounds lands inside the bounds. -/
theorem clamp_mem (v lo hi : ℚ) (h : lo ≤ hi) :
    lo ≤ clamp v lo hi ∧ clamp v lo hi ≤ hi :=
  ⟨le_max_left _ _, max_le h (min_le_right _ _)⟩

/-- The two sequential day-of-year boundary checks land in `[1, 366]`. -/
theorem clampDoy_mem (d : ℚ) : 1 ≤ clampDoy d ∧ clampDoy d ≤ 366 := by
  simp only [clampDoy]
  split_ifs <;> constructor <;> linarith

/-- The day-of-year offset `Math.floor((Math.random() * 2 - 1) * 15)`
has absolute value at most 15 for a draw in `[0, 1)`. -/
theorem floor_doy_offset_abs_le (r : ℚ) (h0 : 0 ≤ r) (h1 : r < 1) :
    |((⌊(r * 2 - 1) * DOY_OFFSET⌋ : ℤ) : ℚ)| ≤ 15 := by
  have hub : ⌊(r * 2 - 1) * DOY_OFFSET⌋ < 15 := by
    apply Int.floor_lt.2
    unfold DOY_OFFSET
    push_cast
    nlinarith
  have hlb : (-15 : ℤ) ≤ ⌊(r * 2 - 1) * DOY_OFFSET⌋ := by
    apply Int.le_floor.2
    unfold DOY_OFFSET
    push_cast
    nlinarith
  rw [abs_le]
  constructor
  · exact_mod_cast hlb
  · have h15 : ⌊(r * 2 - 1) * DOY_OFFSET⌋ ≤ 15 := by omega
    exact_mod_cast h15

/-- Claim C5: every record emitted by the local negative generator has
latitude and longitude clamped into the Domain Bounds, keeps its
anchor's year, its day-of-year differs from the anchor's by at most 15
before the boundary checks, and lies in `[1, 366]` after them. -/
theorem c5_local_generator_properties (posData : List FireRecord)
    (numLocalNeg : ℕ) (bounding : Bounding) (fireSet : List EventKey)
    (rng : ℕ → ℚ)
    (hpos : posData ≠ [])
    (hrng : ∀ n, 0 ≤ rng n ∧ rng n < 1)
    (hlat : bounding.latMin ≤ bounding.latMax)
    (hlon : bounding.lonMin ≤ bounding.lonMax) :
    ∀ rec ∈ (createLocalNegativeSamples posData numLocalNeg bounding fireSet rng).1,
      (bounding.latMin ≤ rec.LATITUDE ∧ rec.LATITUDE ≤ bounding.latMax) ∧
      (bounding.lonMin ≤ rec.LONGITUDE ∧ rec.LONGITUDE ≤ bounding.lonMax) ∧
      ∃ anchor ∈ posData, rec.FIRE_YEAR = anchor.FIRE_YEAR ∧
        ∃ preDoy : ℚ, |preDoy - anchor.DISCOVERY_DOY| ≤ 15 ∧
          rec.DISCOVERY_DOY = clampDoy preDoy ∧
          1 ≤ rec.DISCOVERY_DOY ∧ rec.DISCOVERY_DOY ≤ 366 := by
  intro rec hrec
  simp only [createLocalNegativeSamples] at hrec
  obtain ⟨u, -, rfl⟩ :=
    (sampleLoop_spec (localCand posData bounding rng) _ _ _ _).2.2.2 rec hrec
  simp only [localCand]
  refine ⟨clamp_mem _ _ _ hlat, clamp_mem _ _ _ hlon, ?_⟩
  refine ⟨posData.getD ((⌊rng (4 * u) * posData.length⌋).toNat) default, ?_, rfl, ?_⟩
  · apply getD_mem_of_lt
    exact floor_mul_length_lt _ _ (hrng _).1 (hrng _).2
      (List.length_pos.2 hpos)
  · refine ⟨(posData.getD ((⌊rng (4 * u) * posData.length⌋).toNat)
        default).DISCOVERY_DOY +
        ((⌊(rng (4 * u + 3) * 2 - 1) * DOY_OFFSET⌋ : ℤ) : ℚ), ?_, rfl, ?_⟩
    · rw [add_sub_cancel_left]
      exact floor_doy_offset_abs_le _ (hrng _).1 (hrng _).2
    · exact clampDoy_mem _

/-- A concrete one-row positive dataset used by witnesses. -/
def posData₁ : List FireRecord := [⟨5, 30, -80, 2020, 100⟩]

/-- A concrete draw stream: every fourth draw (the day-of-year draw of
the local generator) is `0`, the rest are `1/2`. -/
def rngW : ℕ → ℚ := fun n => if n % 4 = 3 then 0 else 1 / 2

/-- The record the local generator accepts on its first attempt when run
on `posData₁` with the stream `rngW`. -/
def recW : FireRecord := ⟨0, 30, -80, 2020, 85⟩

/-- Witness for claim C5 at a concrete run of the local generator. -/
theorem c5_local_generator_properties_witness :
    ((boundingOf posData₁).latMin ≤ recW.LATITUDE ∧
      recW.LATITUDE ≤ (boundingOf posData₁).latMax) ∧
    ((boundingOf posData₁).lonMin ≤ recW.LONGITUDE ∧
      recW.LONGITUDE ≤ (boundingOf posData₁).lonMax) ∧
    ∃ anchor ∈ posData₁, recW.FIRE_YEAR = anchor.FIRE_YEAR ∧
      ∃ preDoy : ℚ, |preDoy - anchor.DISCOVERY_DOY| ≤ 15 ∧
        recW.DISCOVERY_DOY = clampDoy preDoy ∧
        1 ≤ recW.DISCOVERY_DOY ∧ recW.DISCOVERY_DOY ≤ 366 := by
  have hcand : localCand posData₁ (boundingOf posData₁) rngW 0 = recW := by
    norm_num [localCand, posData₁, rngW, boundingOf, findMinMax, findMinMaxStep,
      LAT_OFFSET_DEG, LON_OFFSET_DEG, DOY_OFFSET, clamp, clampDoy, List.getD, recW]
  have hnk : fireKey recW ∉ buildFireSet posData₁ := by
    norm_num [fireKey, roundTo4, round_eq, buildFireSet, posData₁, recW]
  have hmem : recW ∈
      (createLocalNegativeSamples posData₁ 1 (boundingOf posData₁)
        (buildFireSet posData₁) rngW).1 := by
    simp only [createLocalNegativeSamples]
    norm_num [sampleLoop, hcand, hnk]
  exact c5_local_generator_properties posData₁ 1 (boundingOf posData₁)
    (buildFireSet posData₁) rngW (by simp [posData₁])
    (fun n => by simp only [rngW]; split <;> norm_num)
    (by norm_num [boundingOf, posData₁, findMinMax])
    (by norm_num [boundingOf, posData₁, findMinMax]) recW hmem

/-! ## Spatial grid occupancy index (`createNeverFireNegatives`) -/

/-- `LAT_CELL_SIZE` in `createNeverFireNegatives`. -/
def LAT_CELL_SIZE : ℚ := 1

/-- `LON_CELL_SIZE` in `createNeverFireNegatives`. -/
def LON_CELL_SIZE : ℚ := 1

/-- `latToCell(lat)`: `Math.floor((lat - bounding.latMin) / LAT_CELL_SIZE)`. -/
def latToCell (bounding : Bounding) (lat : ℚ) : ℤ :=
  ⌊(lat - bounding.latMin) / LAT_CELL_SIZE⌋

/-- `lonToCell(lon)`: `Math.floor((lon - bounding.lonMin) / LON_CELL_SIZE)`. -/
def lonToCell (bounding : Bounding) (lon : ℚ) : ℤ :=
  ⌊(lon - bounding.lonMin) / LON_CELL_SIZE⌋

/-- `cellCountLat = Math.ceil(latRange / LAT_CELL_SIZE)` (nonnegative since
the bounds come from data, so the `toNat` is lossless there). -/
def cellCountLat (bounding : Bounding) : ℕ :=
  (⌈(bounding.latMax - bounding.latMin) / LAT_CELL_SIZE⌉).toNat

/-- `cellCountLon = Math.ceil(lonRange / LON_CELL_SIZE)`. -/
def cellCountLon (bounding : Bounding) : ℕ :=
  (⌈(bounding.lonMax - bounding.lonMin) / LON_CELL_SIZE⌉).toNat

/-- The number of positive rows falling in a given cell.  The source
accumulates `fireCellMap : cell_id -> count` by one increment per row, so
`fireCellMap.get(cellId)` is exactly this count and `fireCellMap.has(cellId)`
holds iff this count is nonzero. -/
def firesInCell (posData : List FireRecord) (bounding : Bounding)
    (cell : ℤ × ℤ) : ℕ :=
  (posData.filter fun row =>
    latToCell bounding row.LATITUDE == cell.1 &&
    lonToCell bounding row.LONGITUDE == cell.2).length

/-- The `zeroFireCells` array: all cells of the
`cellCountLat × cellCountLon` grid with `!fireCellMap.has(cellId)`, i.e.
with zero positive rows, enumerated in source order (outer `cLat`, inner
`cLon`). -/
def zeroFireCells (posData : List FireRecord) (bounding : Bounding) :
    List (ℤ × ℤ) :=
  (List.range (cellCountLat bounding)).flatMap fun cLat =>
    (List.range (cellCountLon bounding)).filterMap fun cLon =>
      if firesInCell posData bounding ((cLat : ℤ), (cLon : ℤ)) = 0 then
        some ((cLat : ℤ), (cLon : ℤ))
      else none

/-- The candidate that attempt `t` of `createNeverFireNegatives` builds
from a given zero-occupancy cell: a uniform point inside the cell's
bounds, clamped into the Domain Bounds, with year and day-of-year drawn
as in the global generator.  Attempt `t` consumes `rng (5t+1) … rng (5t+4)`. -/
def neverFireCandFromCell (bounding : Bounding) (rng : ℕ → ℚ) (t : ℕ)
    (cell : ℤ × ℤ) : FireRecord :=
  let latCellMin := bounding.latMin + (cell.1 : ℚ) * LAT_CELL_SIZE
  let latCellMax := latCellMin + LAT_CELL_SIZE
  let lat := randomInRange (rng (5 * t + 1)) latCellMin latCellMax
  let lonCellMin := bounding.lonMin + (cell.2 : ℚ) * LON_CELL_SIZE
  let lonCellMax := lonCellMin + LON_CELL_SIZE
  let lon := randomInRange (rng (5 * t + 2)) lonCellMin lonCellMax
  { FIRE_SIZE := 0
    LATITUDE := clamp lat bounding.latMin bounding.latMax
    LONGITUDE := clamp lon bounding.lonMin bounding.lonMax
    FIRE_YEAR :=
      (⌊randomInRange (rng (5 * t + 3)) bounding.yearMin (bounding.yearMax + 1)⌋ : ℤ)
    DISCOVERY_DOY := (⌊randomInRange (rng (5 * t + 4)) 1 367⌋ : ℤ) }

/-- The candidate of attempt `t` of `createNeverFireNegatives`: a random
zero-occupancy cell (draw `rng (5t)`) and a point sampled from it. -/
def neverFireCand (zfc : List (ℤ × ℤ)) (bounding : Bounding) (rng : ℕ → ℚ)
    (t : ℕ) : FireRecord :=
  neverFireCandFromCell bounding rng t
    (zfc.getD ((⌊rng (5 * t) * zfc.length⌋).toNat) (0, 0))

/-- `createNeverFireNegatives(posData, bounding, fireSet, numSamplesWanted)`:
early `return negatives` (empty, set untouched) when no zero-occupancy
cell exists, otherwise the shared accept/reject loop with
`maxAttempts = numSamplesWanted * 10`. -/
def createNeverFireNegatives (posData : List FireRecord) (bounding : Bounding)
    (fireSet : List EventKey) (numSamplesWanted : ℕ) (rng : ℕ → ℚ) :
    List FireRecord × List EventKey :=
  let zfc := zeroFireCells posData bounding
  if zfc = [] then ([], fireSet)
  else
    sampleLoop (neverFireCand zfc bounding rng) (numSamplesWanted * 10)
      numSamplesWanted 0 fireSet

/-! ## The dataset assembly of `runTraining` (steps 1-4), staged -/

/-- Stage 3a of `runTraining`: the local generator invocation, on the
freshly built fire set. -/
def runLocalRes (posData : List FireRecord) (rngL : ℕ → ℚ) :
    List FireRecord × List EventKey :=
  createLocalNegativeSamples posData (localNegCount posData.length).toNat
    (boundingOf posData) (buildFireSet posData) rngL

/-- Stage 3b of `runTraining`: the global generator invocation, on the
key set as left by the local generator. -/
def runGlobalRes (posData : List FireRecord) (rngL rngG : ℕ → ℚ) :
    List FireRecord × List EventKey :=
  createGlobalNegativeSamples (globalNegCount posData.length).toNat
    (boundingOf posData) (runLocalRes posData rngL).2 rngG

/-- Stage 3c of `runTraining`: the never-fire generator invocation, on
the key set as left by the global generator. -/
def runNeverRes (posData : List FireRecord) (rngL rngG rngN : ℕ → ℚ) :
    List FireRecord × List EventKey :=
  createNeverFireNegatives posData (boundingOf posData)
    (runGlobalRes posData rngL rngG).2 (neverFireNegCount posData.length).toNat
    rngN

/-- Step 4 of `runTraining`: `fullData = positiveData.concat(negativeData)`
with `negativeData = [...local, ...global, ...neverFire]`. -/
def runTrainingDataset (posData : List FireRecord) (rngL rngG rngN : ℕ → ℚ) :
    List FireRecord :=
  posData ++ (runLocalRes posData rngL).1 ++ (runGlobalRes posData rngL rngG).1 ++
    (runNeverRes posData rngL rngG rngN).1

/-! ## Theorems for claims C6 and C7 -/

/-- Every member of `zeroFireCells` has zero positive rows in it. -/
theorem zeroFireCells_occupancy (posData : List FireRecord)
    (bounding : Bounding) :
    ∀ cell ∈ zeroFireCells posData bounding,
      firesInCell posData bounding cell = 0 := by
  intro cell hcell
  simp only [zeroFireCells, List.mem_flatMap, List.mem_filterMap,
    List.mem_range] at hcell
  obtain ⟨cLat, -, cLon, -, hif⟩ := hcell
  by_cases h : firesInCell posData bounding ((cLat : ℤ), (cLon : ℤ)) = 0
  · rw [if_pos h] at hif
    cases hif
    exact h
  · rw [if_neg h] at hif
    cases hif

/-- Claim C6: every record emitted by the never-occurred generator
originates from a cell of the zero-occupancy list, whose count of
positive events is zero. -/
theorem c6_neverFire_zero_occupancy (posData : List FireRecord)
    (bounding : Bounding) (fireSet : List EventKey) (numSamplesWanted : ℕ)
    (rng : ℕ → ℚ) (hrng : ∀ n, 0 ≤ rng n ∧ rng n < 1) :
    ∀ rec ∈ (createNeverFireNegatives posData bounding fireSet
        numSamplesWanted rng).1,
      ∃ cell ∈ zeroFireCells posData bounding,
        firesInCell posData bounding cell = 0 ∧
        ∃ u, rec = neverFireCandFromCell bounding rng u cell := by
  intro rec hrec
  simp only [createNeverFireNegatives] at hrec
  by_cases hz : zeroFireCells posData bounding = []
  · rw [if_pos hz] at hrec
    simp at hrec
  · rw [if_neg hz] at hrec
    obtain ⟨u, -, rfl⟩ := (sampleLoop_spec _ _ _ _ _).2.2.2 rec hrec
    have hlen : 0 < (zeroFireCells posData bounding).length :=
      List.length_pos.2 hz
    have hidx :
        ((⌊rng (5 * u) * (zeroFireCells posData bounding).length⌋).toNat) <
          (zeroFireCells posData bounding).length :=
      floor_mul_length_lt _ _ (hrng _).1 (hrng _).2 hlen
    refine ⟨(zeroFireCells posData bounding).getD
      ((⌊rng (5 * u) * (zeroFireCells posData bounding).length⌋).toNat) (0, 0),
      ?_, ?_, u, rfl⟩
    · exact getD_mem_of_lt _ _ _ hidx
    · exact zeroFireCells_occupancy posData bounding _
        (getD_mem_of_lt _ _ _ hidx)

/-- Claim C7: when the grid has no zero-occupancy cell, the never-fire
generator returns an empty list and leaves the key set untouched, and
the assembled training dataset is simply the positives followed by the
local and global negatives — the run continues with the negative quota
short by that generator's share. -/
theorem c7_no_zero_cells (posData : List FireRecord) (bounding : Bounding)
    (fireSet : List EventKey) (numSamplesWanted : ℕ)
    (rng rngL rngG rngN : ℕ → ℚ)
    (h : zeroFireCells posData bounding = [])
    (h2 : zeroFireCells posData (boundingOf posData) = []) :
    createNeverFireNegatives posData bounding fireSet numSamplesWanted rng =
      ([], fireSet) ∧
    runTrainingDataset posData rngL rngG rngN =
      posData ++ (runLocalRes posData rngL).1 ++
        (runGlobalRes posData rngL rngG).1 := by
  constructor
  · simp only [createNeverFireNegatives]
    rw [if_pos h]
  · have hnever : (runNeverRes posData rngL rngG rngN).1 = [] := by
      simp only [runNeverRes, createNeverFireNegatives]
      rw [if_pos h2]
    rw [runTrainingDataset, hnever, List.append_nil]

/-- A concrete two-row positive dataset whose 3×1 grid has exactly one
zero-occupancy cell, `(1, 0)`. -/
def posData₆ : List FireRecord := [⟨1, 0, 0, 2000, 10⟩, ⟨1, 5/2, 1/2, 2000, 20⟩]

/-- The bounding box of `posData₆`. -/
def bounding₆ : Bounding := ⟨0, 5/2, 0, 1/2, 2000, 2000⟩

/-- The constant draw stream `1/2`. -/
def rngH : ℕ → ℚ := fun _ => 1 / 2

/-- The record the never-fire generator accepts on its first attempt when
run on `posData₆` with the stream `rngH`. -/
def recN : FireRecord := ⟨0, 3/2, 1/2, 2000, 184⟩

set_option maxHeartbeats 2000000 in
/-- Witness for claim C6 at a concrete run of the never-fire generator. -/
theorem c6_neverFire_zero_occupancy_witness :
    ∃ cell ∈ zeroFireCells posData₆ (boundingOf posData₆),
      firesInCell posData₆ (boundingOf posData₆) cell = 0 ∧
      ∃ u, recN = neverFireCandFromCell (boundingOf posData₆) rngH u cell := by
  have hb : boundingOf posData₆ = bounding₆ := by
    norm_num [boundingOf, posData₆, bounding₆, findMinMax, findMinMaxStep]
  have h3 : cellCountLat bounding₆ = 3 := by
    have hq : ((bounding₆.latMax - bounding₆.latMin) / LAT_CELL_SIZE : ℚ) = 5/2 := by
      norm_num [bounding₆, LAT_CELL_SIZE]
    rw [cellCountLat, hq, show (⌈(5:ℚ)/2⌉ : ℤ) = 3 by
      rw [Int.ceil_eq_iff]
      norm_num]
    rfl
  have h1 : cellCountLon bounding₆ = 1 := by
    have hq : ((bounding₆.lonMax - bounding₆.lonMin) / LON_CELL_SIZE : ℚ) = 1/2 := by
      norm_num [bounding₆, LON_CELL_SIZE]
    rw [cellCountLon, hq, show (⌈(1:ℚ)/2⌉ : ℤ) = 1 by
      rw [Int.ceil_eq_iff]
      norm_num]
    rfl
  have hzfc : zeroFireCells posData₆ bounding₆ = [((1:ℤ), (0:ℤ))] := by
    rw [zeroFireCells, h3, h1]
    norm_num [List.range_succ, firesInCell, latToCell, lonToCell, posData₆,
      bounding₆, LAT_CELL_SIZE, LON_CELL_SIZE, List.filter_cons,
      List.filterMap_cons]
  have hcand : neverFireCand [((1:ℤ), (0:ℤ))] bounding₆ rngH 0 = recN := by
    norm_num [neverFireCand, neverFireCandFromCell, rngH, bounding₆, recN,
      clamp, randomInRange, LAT_CELL_SIZE, LON_CELL_SIZE, List.getD]
  have hkey : fireKey recN ∉ buildFireSet posData₆ := by
    norm_num [fireKey, roundTo4, round_eq, buildFireSet, posData₆, recN]
  have hmem : recN ∈ (createNeverFireNegatives posData₆ (boundingOf posData₆)
      (buildFireSet posData₆) 1 rngH).1 := by
    simp only [createNeverFireNegatives]
    rw [hb, hzfc]
    rw [if_neg (by simp)]
    norm_num [sampleLoop, hcand, hkey]
  exact c6_neverFire_zero_occupancy posData₆ (boundingOf posData₆)
    (buildFireSet posData₆) 1 rngH (fun n => by norm_num [rngH]) recN hmem

/-- Witness for claim C7 at a concrete degenerate-grid dataset. -/
theorem c7_no_zero_cells_witness :
    createNeverFireNegatives posData₁ (boundingOf posData₁)
      (buildFireSet posData₁) 2 rngH = ([], buildFireSet posData₁) ∧
    runTrainingDataset posData₁ rngH rngH rngH =
      posData₁ ++ (runLocalRes posData₁ rngH).1 ++
        (runGlobalRes posData₁ rngH rngH).1 := by
  have hb : boundingOf posData₁ = ⟨30, 30, -80, -80, 2020, 2020⟩ := by
    norm_num [boundingOf, posData₁, findMinMax]
  have hz : zeroFireCells posData₁ (boundingOf posData₁) = [] := by
    rw [hb, zeroFireCells]
    have hcl : cellCountLat (⟨30, 30, -80, -80, 2020, 2020⟩ : Bounding) = 0 := by
      norm_num [cellCountLat, LAT_CELL_SIZE]
    rw [hcl]
    simp
  exact c7_no_zero_cells posData₁ (boundingOf posData₁) (buildFireSet posData₁)
    2 rngH rngH rngH rngH hz hz

/-! ## Key-set evolution of the generators (claims C2 and C10) -/

/-- What one generator invocation guarantees about keys: the accepted
records have pairwise-distinct keys, each accepted key was absent from
the shared key set the invocation started from (so it was absent at the
moment its candidate was tested), and each is present in the key set the
invocation returns (it was added right after acceptance). -/
def freshKeysSpec (result : List FireRecord × List EventKey)
    (fireSet : List EventKey) : Prop :=
  ((result.1.map fireKey).Nodup) ∧
  (∀ k ∈ result.1.map fireKey, k ∉ fireSet ∧ k ∈ result.2)

/-- The sampling loop satisfies `freshKeysSpec`. -/
theorem sampleLoop_freshKeys (cand : ℕ → FireRecord) (fuel want t : ℕ)
    (set : List EventKey) :
    freshKeysSpec (sampleLoop cand fuel want t set) set := by
  obtain ⟨h1, h2, h3, -⟩ := sampleLoop_spec cand fuel want t set
  refine ⟨h2, fun k hk => ⟨h3 k hk, ?_⟩⟩
  rw [h1]
  simp only [List.mem_append, List.mem_reverse]
  exact Or.inl hk

/-- The final key set of the sampling loop holds exactly the input keys
and the accepted keys. -/
theorem sampleLoop_set_mem (cand : ℕ → FireRecord) (fuel want t : ℕ)
    (set : List EventKey) :
    ∀ k, k ∈ (sampleLoop cand fuel want t set).2 ↔
      k ∈ ((sampleLoop cand fuel want t set).1.map fireKey) ∨ k ∈ set := by
  intro k
  rw [(sampleLoop_spec cand fuel want t set).1]
  simp [List.mem_append, List.mem_reverse]

/-- `createNeverFireNegatives` satisfies `freshKeysSpec` in both its
branches. -/
theorem createNeverFire_freshKeys (posData : List FireRecord)
    (bounding : Bounding) (fireSet : List EventKey) (n : ℕ) (rng : ℕ → ℚ) :
    freshKeysSpec (createNeverFireNegatives posData bounding fireSet n rng)
      fireSet := by
  simp only [createNeverFireNegatives]
  split
  · exact ⟨by simp, by simp⟩
  · exact sampleLoop_freshKeys _ _ _ _ _

/-- Claim C2 (amended): provided the positive records themselves have
pairwise-distinct Event Keys — the source never deduplicates the
positive rows — no two records of the final merged dataset share an
Event Key; and each of the three generator invocations of the run only
accepts candidates whose key is absent from the shared key set it was
handed (hence absent at test time) and records every accepted key in the
set it returns. -/
theorem c2_no_duplicate_keys (posData : List FireRecord)
    (rngL rngG rngN : ℕ → ℚ)
    (h : (posData.map fireKey).Nodup) :
    ((runTrainingDataset posData rngL rngG rngN).map fireKey).Nodup ∧
    freshKeysSpec (runLocalRes posData rngL) (buildFireSet posData) ∧
    freshKeysSpec (runGlobalRes posData rngL rngG)
      (runLocalRes posData rngL).2 ∧
    freshKeysSpec (runNeverRes posData rngL rngG rngN)
      (runGlobalRes posData rngL rngG).2 := by
  have fL : freshKeysSpec (runLocalRes posData rngL) (buildFireSet posData) :=
    sampleLoop_freshKeys _ _ _ _ _
  have fG : freshKeysSpec (runGlobalRes posData rngL rngG)
      (runLocalRes posData rngL).2 :=
    sampleLoop_freshKeys _ _ _ _ _
  have fN : freshKeysSpec (runNeverRes posData rngL rngG rngN)
      (runGlobalRes posData rngL rngG).2 :=
    createNeverFire_freshKeys _ _ _ _ _
  have memS1 : ∀ k, k ∈ (runLocalRes posData rngL).2 ↔
      k ∈ ((runLocalRes posData rngL).1.map fireKey) ∨
        k ∈ buildFireSet posData :=
    sampleLoop_set_mem _ _ _ _ _
  have memS2 : ∀ k, k ∈ (runGlobalRes posData rngL rngG).2 ↔
      k ∈ ((runGlobalRes posData rngL rngG).1.map fireKey) ∨
        k ∈ (runLocalRes posData rngL).2 :=
    sampleLoop_set_mem _ _ _ _ _
  refine ⟨?_, fL, fG, fN⟩
  have hS0 : buildFireSet posData = posData.map fireKey := rfl
  rw [runTrainingDataset]
  simp only [List.map_append]
  rw [List.nodup_append, List.nodup_append, List.nodup_append]
  refine ⟨⟨⟨h, fL.1, ?_⟩, fG.1, ?_⟩, fN.1, ?_⟩
  · intro a haP haL
    exact (fL.2 a haL).1 (hS0 ▸ haP)
  · intro a ha haG
    have hnotS1 : a ∉ (runLocalRes posData rngL).2 := (fG.2 a haG).1
    rw [memS1] at hnotS1
    push_neg at hnotS1
    rcases List.mem_append.1 ha with haP | haL
    · exact hnotS1.2 (hS0 ▸ haP)
    · exact hnotS1.1 haL
  · intro a ha haN
    have hnotS2 : a ∉ (runGlobalRes posData rngL rngG).2 := (fN.2 a haN).1
    rw [memS2] at hnotS2
    push_neg at hnotS2
    have hnotS1 := hnotS2.2
    rw [memS1] at hnotS1
    push_neg at hnotS1
    rcases List.mem_append.1 ha with ha2 | haG
    · rcases List.mem_append.1 ha2 with haP | haL
      · exact hnotS1.2 (hS0 ▸ haP)
      · exact hnotS1.1 haL
    · exact hnotS2.1 haG

/-- The positive record repeated in the C2 counterexample dataset. -/
def recDup : FireRecord := ⟨5, 30, -80, 2020, 100⟩

/-- A positive dataset containing the same row twice — nothing in
`loadPositiveData` or `runTraining` forbids or removes duplicate CSV
rows. -/
def posDataDup : List FireRecord := [recDup, recDup]

/-- Counterexample to claim C2 as stated: with a duplicated positive
row, the final merged dataset contains two records with the same Event
Key, because the pipeline deduplicates only the synthesized negatives,
never the positives. -/
theorem c2_counterexample_duplicate_positives :
    ¬ ((runTrainingDataset posDataDup rngH rngH rngH).map fireKey).Nodup := by
  have hlen : posDataDup.length = 2 := rfl
  have hqL : (localNegCount posDataDup.length).toNat = 0 := by
    rw [show localNegCount posDataDup.length = 0 from by
      show ⌊(posDataDup.length : ℚ) * 0.4⌋ = 0
      rw [hlen]
      norm_num]
    rfl
  have hqG : (globalNegCount posDataDup.length).toNat = 0 := by
    rw [show globalNegCount posDataDup.length = 0 from by
      show ⌊(posDataDup.length : ℚ) * 0.3⌋ = 0
      rw [hlen]
      norm_num]
    rfl
  have hL : (runLocalRes posDataDup rngH).1 = [] := by
    rw [runLocalRes, hqL]
    simp [createLocalNegativeSamples, sampleLoop]
  have hG : (runGlobalRes posDataDup rngH rngH).1 = [] := by
    rw [runGlobalRes, hqG]
    simp [createGlobalNegativeSamples, sampleLoop]
  have hbD : boundingOf posDataDup = ⟨30, 30, -80, -80, 2020, 2020⟩ := by
    norm_num [boundingOf, posDataDup, recDup, findMinMax, findMinMaxStep]
  have hzD : zeroFireCells posDataDup (boundingOf posDataDup) = [] := by
    rw [hbD, zeroFireCells]
    have hcl : cellCountLat (⟨30, 30, -80, -80, 2020, 2020⟩ : Bounding) = 0 := by
      norm_num [cellCountLat, LAT_CELL_SIZE]
    rw [hcl]
    simp
  have hN : (runNeverRes posDataDup rngH rngH rngH).1 = [] := by
    simp only [runNeverRes, createNeverFireNegatives]
    rw [hzD]
    simp
  rw [runTrainingDataset, hL, hG, hN]
  simp [posDataDup]

/-- A concrete two-row positive dataset with distinct Event Keys (the
end-to-end scenario of the specification). -/
def posData₂ : List FireRecord := [⟨5, 30, -80, 2020, 100⟩, ⟨3, 31, -81, 2021, 150⟩]

/-- Witness for the amended claim C2 at a concrete run. -/
theorem c2_no_duplicate_keys_witness :
    ((runTrainingDataset posData₂ rngH rngH rngH).map fireKey).Nodup ∧
    freshKeysSpec (runLocalRes posData₂ rngH) (buildFireSet posData₂) ∧
    freshKeysSpec (runGlobalRes posData₂ rngH rngH)
      (runLocalRes posData₂ rngH).2 ∧
    freshKeysSpec (runNeverRes posData₂ rngH rngH rngH)
      (runGlobalRes posData₂ rngH rngH).2 :=
  c2_no_duplicate_keys posData₂ rngH rngH rngH
    (by norm_num [posData₂, fireKey, roundTo4, round_eq, List.nodup_cons])

/-! ## Reference-state view of the generators (claim C10) -/

/-- The caller's state as the three generators see it: the positive
array, the bounding object and the shared mutable key set, all passed by
reference in the source. -/
structure GenState where
  posData : List FireRecord
  bounding : Bounding
  fireSet : List EventKey

/-- `createLocalNegativeSamples` as an action on the caller's state: the
source mutates only `fireSet` (via `fireSet.add`), never writing to
`posData` or `bounding`. -/
def createLocalNegativeSamplesS (numLocalNeg : ℕ) (rng : ℕ → ℚ)
    (s : GenState) : List FireRecord × GenState :=
  let r := createLocalNegativeSamples s.posData numLocalNeg s.bounding
    s.fireSet rng
  (r.1, { s with fireSet := r.2 })

/-- `createGlobalNegativeSamples` as an action on the caller's state. -/
def createGlobalNegativeSamplesS (numGlobalNeg : ℕ) (rng : ℕ → ℚ)
    (s : GenState) : List FireRecord × GenState :=
  let r := createGlobalNegativeSamples numGlobalNeg s.bounding s.fireSet rng
  (r.1, { s with fireSet := r.2 })

/-- `createNeverFireNegatives` as an action on the caller's state. -/
def createNeverFireNegativesS (numSamplesWanted : ℕ) (rng : ℕ → ℚ)
    (s : GenState) : List FireRecord × GenState :=
  let r := createNeverFireNegatives s.posData s.bounding s.fireSet
    numSamplesWanted rng
  (r.1, { s with fireSet := r.2 })

/-- The frame property of one generator: the positive array and the
bounds are returned unchanged, every key of the incoming set is still in
the outgoing set, and every key of the outgoing set is either an
incoming key or the key of one of the records the call emitted. -/
def generatorFrameSpec (gen : GenState → List FireRecord × GenState) : Prop :=
  ∀ s : GenState,
    ((gen s).2.posData = s.posData) ∧
    ((gen s).2.bounding = s.bounding) ∧
    (∀ k ∈ s.fireSet, k ∈ (gen s).2.fireSet) ∧
    (∀ k ∈ (gen s).2.fireSet, k ∈ s.fireSet ∨ k ∈ (gen s).1.map fireKey)

/-- Claim C10: each of the three negative-sample generators mutates only
the shared key set, growing it with exactly the keys of the candidates
it accepted; the positive record list and the Domain Bounds are
unchanged when it returns. -/
theorem c10_generators_frame (nL nG nN : ℕ) (rngL rngG rngN : ℕ → ℚ) :
    generatorFrameSpec (createLocalNegativeSamplesS nL rngL) ∧
    generatorFrameSpec (createGlobalNegativeSamplesS nG rngG) ∧
    generatorFrameSpec (createNeverFireNegativesS nN rngN) := by
  refine ⟨fun s => ⟨rfl, rfl, ?_, ?_⟩, fun s => ⟨rfl, rfl, ?_, ?_⟩,
    fun s => ⟨rfl, rfl, ?_, ?_⟩⟩
  · intro k hk
    exact (sampleLoop_set_mem _ _ _ _ _ k).2 (Or.inr hk)
  · intro k hk
    rcases (sampleLoop_set_mem _ _ _ _ _ k).1 hk with h | h
    · exact Or.inr h
    · exact Or.inl h
  · intro k hk
    exact (sampleLoop_set_mem _ _ _ _ _ k).2 (Or.inr hk)
  · intro k hk
    rcases (sampleLoop_set_mem _ _ _ _ _ k).1 hk with h | h
    · exact Or.inr h
    · exact Or.inl h
  · intro k hk
    simp only [createNeverFireNegativesS, createNeverFireNegatives]
    split
    · exact hk
    · exact (sampleLoop_set_mem _ _ _ _ _ k).2 (Or.inr hk)
  · intro k hk
    simp only [createNeverFireNegativesS, createNeverFireNegatives] at hk ⊢
    revert hk
    split
    · exact fun hk => Or.inl hk
    · intro hk
      rcases (sampleLoop_set_mem _ _ _ _ _ k).1 hk with h | h
      · exact Or.inr h
      · exact Or.inl h

/-! ## Pollution pipeline: cyclical date encoding
(src/pollution_prediction/train.js and the pollution predict.js,
src/unnamed/part_002) -/

/-- The components of a parsed calendar date as the source reads them
back from the JS `Date` object: `getUTCFullYear()`, `getUTCMonth() + 1`
(so `month` is 1-based) and the day of month. -/
structure CivilDate where
  year : ℤ
  month : ℕ
  day : ℕ
deriving DecidableEq

/-- The Gregorian leap-year rule, which is what JS `Date` millisecond
arithmetic implements. -/
def isLeapYear (y : ℤ) : Bool :=
  (y % 4 == 0 && y % 100 != 0) || (y % 400 == 0)

/-- The day counts of the twelve months. -/
def monthLengths (leap : Bool) : List ℕ :=
  [31, if leap then 29 else 28, 31, 30, 31, 30, 31, 31, 30, 31, 30, 31]

/-- Days strictly before the 1-based month `m` of a year. -/
def daysBeforeMonth (leap : Bool) (m : ℕ) : ℕ :=
  ((monthLengths leap).take (m - 1)).sum

/-- `dayIndex = Math.floor((date - startOfYear) / (1000*60*60*24)) + 1`:
the millisecond difference of the two midnights is a whole number of
days — the civil day count since January 1 of the date's year — so the
floor is exact and `dayIndex` is that count plus one.  (The source
builds `startOfYear` with the local-time `Date` constructor while the
date string parses as UTC; we model the run at UTC offset zero, where
the two clocks agree.) -/
def dayIndexOf (d : CivilDate) : ℤ :=
  (daysBeforeMonth (isLeapYear d.year) d.month : ℤ) + d.day

/-- `dayOfYear = Math.max(1, Math.min(dayIndex, 366))`. -/
def dayOfYearOf (d : CivilDate) : ℤ :=
  Max.max 1 (Min.min (dayIndexOf d) 366)

/-- `encodeCyclical(value, maxValue)`: the `(sin, cos)` pair of
`(2 * Math.PI * value) / maxValue`, with the platform sine and cosine
kept abstract as `s` and `c`. -/
noncomputable def encodeCyclical (s c : ℝ → ℝ) (value maxValue : ℝ) : ℝ × ℝ :=
  (s (2 * Real.pi * value / maxValue), c (2 * Real.pi * value / maxValue))

/-- `parseDateToFeatures(dateString)`, textually identical in the
pollution `train.js` and `predict.js`; the only difference between the
two call sites is where `globalMinYear` / `globalMaxYear` come from,
which is why they are parameters here.  Returns
`[yearScaled, monthSin, monthCos, daySin, dayCos]`. -/
noncomputable def parseDateToFeatures (s c : ℝ → ℝ)
    (globalMinYear globalMaxYear : ℤ) (d : CivilDate) :
    ℝ × ℝ × ℝ × ℝ × ℝ :=
  let fullYear := d.year
  let yearScaled : ℝ :=
    ((fullYear : ℝ) - (globalMinYear : ℝ)) /
      ((globalMaxYear : ℝ) - (globalMinYear : ℝ))
  let month : ℕ := d.month
  let monthPair := encodeCyclical s c (month : ℝ) 12
  let dayOfYear := dayOfYearOf d
  let dayPair := encodeCyclical s c (dayOfYear : ℝ) 366
  (yearScaled, monthPair.1, monthPair.2, dayPair.1, dayPair.2)

/-- The `const globalMinYear = 1990` of the pollution `predict.js`. -/
def predictGlobalMinYear : ℤ := 1990

/-- The `const globalMaxYear = 2030` of the pollution `predict.js`. -/
def predictGlobalMaxYear : ℤ := 2030

/-- The inference-time date encoder of the pollution `predict.js`:
`parseDateToFeatures` over the hardcoded year bounds 1990/2030. -/
noncomputable def predictDateEncoder (s c : ℝ → ℝ) (d : CivilDate) :
    ℝ × ℝ × ℝ × ℝ × ℝ :=
  parseDateToFeatures s c predictGlobalMinYear predictGlobalMaxYear d

/-- `findMinMaxYear(rows)` of the pollution `train.js`: the min and max
of `new Date(row.Date).getUTCFullYear()` over all rows, scanned with a
±Infinity-initialised accumulator exactly as in `findMinMax`. -/
def findMinMaxYear : List CivilDate → ℤ × ℤ
  | [] => (0, 0)
  | d :: rest =>
    rest.foldl
      (fun acc e =>
        (if e.year < acc.1 then e.year else acc.1,
         if acc.2 < e.year then e.year else acc.2))
      (d.year, d.year)

/-- The training-time date encoder: in `runTraining` of the pollution
`train.js`, `globalMinYear` and `globalMaxYear` are reassigned to the
dataset's own min and max year (lines 202-204) before any row is
encoded, so training encodes against the recomputed bounds. -/
noncomputable def trainDateEncoder (s c : ℝ → ℝ) (dates : List CivilDate)
    (d : CivilDate) : ℝ × ℝ × ℝ × ℝ × ℝ :=
  parseDateToFeatures s c (findMinMaxYear dates).1 (findMinMaxYear dates).2 d

/-- One loaded row of the pollution CSV.  A target column holds the
result of `parseFloat`: `none` models `NaN` (the cell does not parse as
a number), `some q` a parsed value. -/
structure PollutionRow where
  Date : CivilDate
  Longitude_Geocoded : ℚ
  Latitude_Geocoded : ℚ
  O3_Mean : Option ℚ
  O3_1st_Max_Value : Option ℚ
  O3_1st_Max_Hour : Option ℚ
  O3_AQI : Option ℚ
  CO_Mean : Option ℚ
  CO_1st_Max_Value : Option ℚ
  CO_1st_Max_Hour : Option ℚ
  CO_AQI : Option ℚ
  SO2_Mean : Option ℚ
  SO2_1st_Max_Value : Option ℚ
  SO2_1st_Max_Hour : Option ℚ
  SO2_AQI : Option ℚ
  NO2_Mean : Option ℚ
  NO2_1st_Max_Value : Option ℚ
  NO2_1st_Max_Hour : Option ℚ
  NO2_AQI : Option ℚ
deriving DecidableEq

/-- `safeParse(str)`: `isNaN(val) ? 0.0 : val`. -/
def safeParse : Option ℚ → ℚ
  | none => 0
  | some v => v

/-- The 16 target columns of a row, in the fixed output order
(`{O3, CO, SO2, NO2} × {Mean, 1st Max Value, 1st Max Hour, AQI}`). -/
def targetFields (row : PollutionRow) : List (Option ℚ) :=
  [row.O3_Mean, row.O3_1st_Max_Value, row.O3_1st_Max_Hour, row.O3_AQI,
   row.CO_Mean, row.CO_1st_Max_Value, row.CO_1st_Max_Hour, row.CO_AQI,
   row.SO2_Mean, row.SO2_1st_Max_Value, row.SO2_1st_Max_Hour, row.SO2_AQI,
   row.NO2_Mean, row.NO2_1st_Max_Value, row.NO2_1st_Max_Hour, row.NO2_AQI]

/-- `rowToFeatureTarget(row)`: the 7 input features
`[yearScaled, monthSin, monthCos, daySin, dayCos, longitude, latitude]`
and the 16 `safeParse`d target values. -/
noncomputable def rowToFeatureTarget (s c : ℝ → ℝ) (gMinY gMaxY : ℤ)
    (row : PollutionRow) : List ℝ × List ℚ :=
  let f := parseDateToFeatures s c gMinY gMaxY row.Date
  ([f.1, f.2.1, f.2.2.1, f.2.2.2.1, f.2.2.2.2,
    (row.Longitude_Geocoded : ℝ), (row.Latitude_Geocoded : ℝ)],
   [safeParse row.O3_Mean, safeParse row.O3_1st_Max_Value,
    safeParse row.O3_1st_Max_Hour, safeParse row.O3_AQI,
    safeParse row.CO_Mean, safeParse row.CO_1st_Max_Value,
    safeParse row.CO_1st_Max_Hour, safeParse row.CO_AQI,
    safeParse row.SO2_Mean, safeParse row.SO2_1st_Max_Value,
    safeParse row.SO2_1st_Max_Hour, safeParse row.SO2_AQI,
    safeParse row.NO2_Mean, safeParse row.NO2_1st_Max_Value,
    safeParse row.NO2_1st_Max_Hour, safeParse row.NO2_AQI])

/-- Steps 1-2 of the pollution `runTraining`: recompute the global year
bounds from the whole dataset, then convert every loaded row — no row is
dropped at this stage. -/
noncomputable def pollutionTrainingData (s c : ℝ → ℝ)
    (rows : List PollutionRow) : List (List ℝ × List ℚ) :=
  rows.map (rowToFeatureTarget s c
    (findMinMaxYear (rows.map PollutionRow.Date)).1
    (findMinMaxYear (rows.map PollutionRow.Date)).2)

/-! ## Theorems for claims C4, C1 and C9 -/

/-- Claim C4: encoding the date `2025-07-19` under global year bounds
`[1990, 2030]` yields a scaled year of exactly `0.875`, month 7 encoded
as the sine and cosine of `2π·7/12`, and day-of-year 200 — the 1-indexed
offset from January 1st of 2025, clamped into `[1, 366]` — encoded as
the sine and cosine of `2π·200/366`.  The equalities are exact, hence in
particular within floating tolerance `1e-6` of the reference
computation. -/
theorem c4_encoding_2025_07_19 (s c : ℝ → ℝ) :
    parseDateToFeatures s c 1990 2030 ⟨2025, 7, 19⟩ =
      (0.875, s (2 * Real.pi * 7 / 12), c (2 * Real.pi * 7 / 12),
       s (2 * Real.pi * 200 / 366), c (2 * Real.pi * 200 / 366)) ∧
    dayIndexOf ⟨2025, 7, 19⟩ = 200 ∧ dayOfYearOf ⟨2025, 7, 19⟩ = 200 := by
  have hday : dayIndexOf ⟨2025, 7, 19⟩ = 200 := by decide
  have hdoy : dayOfYearOf ⟨2025, 7, 19⟩ = 200 := by decide
  refine ⟨?_, hday, hdoy⟩
  simp only [parseDateToFeatures, encodeCyclical, hdoy]
  norm_num

/-- The date list of the drift counterexample: one row in 2000 and one
in 2023, as in a dataset spanning the EPA 2000-2023 data. -/
def driftDates : List CivilDate := [⟨2000, 1, 1⟩, ⟨2023, 6, 15⟩]

/-- The future query date of the drift counterexample. -/
def queryDate : CivilDate := ⟨2025, 7, 19⟩

/-- Claim C1 (refuted): the pollution training run reassigns the year
bounds to the dataset's min/max year, while `predict.js` hardcodes
1990/2030, so the two `parseDateToFeatures` call sites do not compute
the same transformation: on a dataset whose years span 2000-2023, the
query date 2025-07-19 is encoded with `yearScaled = 25/23` at training
time but `0.875` at inference time, whatever the platform sine and
cosine are. -/
theorem c1_train_predict_encoder_drift :
    (∀ s c : ℝ → ℝ,
      trainDateEncoder s c driftDates queryDate ≠
        predictDateEncoder s c queryDate) ∧
    findMinMaxYear driftDates = (2000, 2023) ∧
    predictGlobalMinYear = 1990 ∧ predictGlobalMaxYear = 2030 := by
  have hmm : findMinMaxYear driftDates = (2000, 2023) := by decide
  refine ⟨fun s c h => ?_, hmm, rfl, rfl⟩
  have h1 := congrArg (fun p => p.1) h
  simp only [trainDateEncoder, predictDateEncoder, parseDateToFeatures, hmm,
    predictGlobalMinYear, predictGlobalMaxYear, queryDate] at h1
  norm_num at h1

/-- A `getD` access that reads a `none` field out of the target columns
reads `0` out of the `safeParse`d values. -/
theorem getD_map_safeParse_none :
    ∀ (L : List (Option ℚ)) (i : ℕ), L.getD i (some 0) = none →
      (L.map safeParse).getD i 1 = 0 := by
  intro L
  induction L with
  | nil =>
    intro i h
    simp [List.getD] at h
  | cons x xs ih =>
    intro i h
    cases i with
    | zero =>
      simp only [List.getD_cons_zero] at h
      simp only [List.map_cons, List.getD_cons_zero, h]
      rfl
    | succ j =>
      simp only [List.getD_cons_succ] at h
      simp only [List.map_cons, List.getD_cons_succ]
      exact ih j h

/-- The target component of `rowToFeatureTarget` is exactly the
`safeParse` image of the 16 target columns. -/
theorem rowToFeatureTarget_targets (s c : ℝ → ℝ) (g1 g2 : ℤ)
    (row : PollutionRow) :
    (rowToFeatureTarget s c g1 g2 row).2 = (targetFields row).map safeParse :=
  rfl

/-- Claim C9: a target column that does not parse as a number is coerced
to the default `0.0` by `safeParse`, and the row is kept: the pipeline
emits exactly one feature/target pair per loaded row, the row's 16
targets are all present, the unparsable column reads 0, and the row's
pair is in the dataset. -/
theorem c9_safeParse_coercion (s c : ℝ → ℝ) (rows : List PollutionRow)
    (row : PollutionRow) (i : ℕ)
    (hnone : (targetFields row).getD i (some 0) = none)
    (hrow : row ∈ rows) :
    (pollutionTrainingData s c rows).length = rows.length ∧
    ((rowToFeatureTarget s c
        (findMinMaxYear (rows.map PollutionRow.Date)).1
        (findMinMaxYear (rows.map PollutionRow.Date)).2 row).2).length = 16 ∧
    ((rowToFeatureTarget s c
        (findMinMaxYear (rows.map PollutionRow.Date)).1
        (findMinMaxYear (rows.map PollutionRow.Date)).2 row).2).getD i 1 = 0 ∧
    rowToFeatureTarget s c
        (findMinMaxYear (rows.map PollutionRow.Date)).1
        (findMinMaxYear (rows.map PollutionRow.Date)).2 row ∈
      pollutionTrainingData s c rows := by
  refine ⟨by simp [pollutionTrainingData], rfl, ?_, ?_⟩
  · rw [rowToFeatureTarget_targets]
    exact getD_map_safeParse_none _ _ hnone
  · simp only [pollutionTrainingData]
    exact List.mem_map_of_mem _ hrow

/-- A concrete row whose first target column (`O3 Mean`) fails to parse. -/
def rowMissing : PollutionRow :=
  ⟨⟨2001, 3, 5⟩, -112, 33, none, some 1, some 2, some 3, some 4, some 5,
   some 6, some 7, some 8, some 9, some 10, some 11, some 12, some 13,
   some 14, some 15⟩

/-- Witness for claim C9 at a concrete row with an unparsable `O3 Mean`. -/
theorem c9_safeParse_coercion_witness :
    (pollutionTrainingData id id [rowMissing]).length = [rowMissing].length ∧
    ((rowToFeatureTarget id id
        (findMinMaxYear ([rowMissing].map PollutionRow.Date)).1
        (findMinMaxYear ([rowMissing].map PollutionRow.Date)).2
        rowMissing).2).length = 16 ∧
    ((rowToFeatureTarget id id
        (findMinMaxYear ([rowMissing].map PollutionRow.Date)).1
        (findMinMaxYear ([rowMissing].map PollutionRow.Date)).2
        rowMissing).2).getD 0 1 = 0 ∧
    rowToFeatureTarget id id
        (findMinMaxYear ([rowMissing].map PollutionRow.Date)).1
        (findMinMaxYear ([rowMissing].map PollutionRow.Date)).2 rowMissing ∈
      pollutionTrainingData id id [rowMissing] :=
  c9_safeParse_coercion id id [rowMissing] rowMissing 0 rfl
    (List.mem_singleton.2 rfl)

end AtmosphereML
